import Mathlib

/-!
Verification development for the `student_test_creator` quiz application.

The program under study is a single-file browser quiz tool: it asks an
external text-completion service for multiple-choice questions, extracts a
JSON object from the raw response with the regular expression
`re.search(r'\x7b.*\x7d', text, re.DOTALL)`, decodes it with `json.loads`,
and then drives a four-stage wizard (creation, ready, in-progress, results)
over a per-session state dictionary, scoring the attempt at the end.

This file gives a shallow embedding of that program:
* `Json`, `jsonDecode` model Python's `json.loads` on a list of characters;
* `extractSpan`, `parse_mcq_response` model the regex extraction and the
  `parse_mcq_response` function;
* `calculate_score` models the scoring function over dynamic JSON question
  records (required keys raise, optional keys fall back to defaults, the
  percentage is the exact rational `correct / total * 100`);
* `SessionState`, `stepCreate`, `stepTest`, `resetAvailable`, `applyReset`
  model the Streamlit session dictionary and the per-stage event handlers.

Crashes of the Python code (KeyError, TypeError, ZeroDivisionError) are
modelled by `Option`: a step that would raise returns `none`.
-/

/-- The opening brace character, written via its code point. -/
def openBrace : Char := Char.ofNat 123

/-- The closing brace character, written via its code point. -/
def closeBrace : Char := Char.ofNat 125

/-- Dynamic JSON values as produced by Python's `json.loads`.  Numbers are
kept exactly as `mantissa * 10 ^ exp10`; `json.loads` additionally accepts
the non-standard literals `NaN`, `Infinity` and `-Infinity`. -/
inductive Json where
  | null
  | bool (b : Bool)
  | num (mantissa : Int) (exp10 : Int)
  | nan
  | infinity (neg : Bool)
  | str (s : String)
  | arr (elems : List Json)
  | obj (members : List (String × Json))

/-- Insertion into a Python `dict` rendered as an association list: an
existing key keeps its position and gets the new value, a new key is
appended. -/
def dictInsert : List (String × Json) → String → Json → List (String × Json)
  | [], k, v => [(k, v)]
  | (k', v') :: rest, k, v =>
    if k' = k then (k, v) :: rest else (k', v') :: dictInsert rest k v

/-- Python `d[k]` / `d.get(k)` on a decoded value: lookup succeeds only on
an object that has the key.  `none` models KeyError/TypeError at call
sites that use plain indexing. -/
def Json.getKey (j : Json) (k : String) : Option Json :=
  match j with
  | Json.obj ms => (ms.find? (fun p => p.1 = k)).map (fun p => p.2)
  | _ => none

/-- Python truthiness of a decoded JSON value. -/
def pyTruthy : Json → Bool
  | Json.null => false
  | Json.bool b => b
  | Json.num m _ => !(m = 0 : Bool)
  | Json.nan => true
  | Json.infinity _ => true
  | Json.str s => !(s = "" : Bool)
  | Json.arr l => !l.isEmpty
  | Json.obj l => !l.isEmpty

/-- Skip the JSON whitespace characters (space, tab, newline, carriage
return), as `json.loads` does between tokens. -/
def skipWs : List Char → List Char
  | [] => []
  | c :: rest =>
    if c = ' ' ∨ c = '\t' ∨ c = '\n' ∨ c = '\r' then skipWs rest
    else c :: rest

/-- Value of a hexadecimal digit, for `\u` escapes. -/
def hexVal (c : Char) : Option Nat :=
  if '0' ≤ c ∧ c ≤ '9' then some (c.toNat - 48)
  else if 'a' ≤ c ∧ c ≤ 'f' then some (c.toNat - 87)
  else if 'A' ≤ c ∧ c ≤ 'F' then some (c.toNat - 55)
  else none

/-- The single-character JSON string escapes. -/
def escChar (c : Char) : Option Char :=
  if c = '"' then some '"'
  else if c = '\\' then some '\\'
  else if c = '/' then some '/'
  else if c = 'b' then some (Char.ofNat 8)
  else if c = 'f' then some (Char.ofNat 12)
  else if c = 'n' then some '\n'
  else if c = 'r' then some (Char.ofNat 13)
  else if c = 't' then some '\t'
  else none

/-- Scan the body of a JSON string literal (the opening quote already
consumed): returns the decoded characters and the remainder after the
closing quote.  Unescaped control characters are rejected, as in strict
`json.loads`. -/
def parseStrChars : Nat → List Char → Option (List Char × List Char)
  | 0, _ => none
  | _, [] => none
  | fuel + 1, c :: rest =>
    if c = '"' then some ([], rest)
    else if c = '\\' then
      match rest with
      | [] => none
      | e :: rest2 =>
        if e = 'u' then
          match rest2 with
          | h1 :: h2 :: h3 :: h4 :: rest3 =>
            match hexVal h1, hexVal h2, hexVal h3, hexVal h4 with
            | some a, some b, some c2, some d =>
              (parseStrChars fuel rest3).map
                (fun pr => (Char.ofNat (((a * 16 + b) * 16 + c2) * 16 + d) :: pr.1, pr.2))
            | _, _, _, _ => none
          | _ => none
        else
          match escChar e with
          | some ch => (parseStrChars fuel rest2).map (fun pr => (ch :: pr.1, pr.2))
          | none => none
    else if c.toNat < 32 then none
    else (parseStrChars fuel rest).map (fun pr => (c :: pr.1, pr.2))

/-- Longest prefix of decimal digits and the remainder. -/
def takeDigits : List Char → List Char × List Char
  | [] => ([], [])
  | c :: rest =>
    if c.isDigit then
      let (ds, r) := takeDigits rest
      (c :: ds, r)
    else ([], c :: rest)

/-- Numeric value of a digit string. -/
def digitsToNat (ds : List Char) : Nat :=
  ds.foldl (fun n c => n * 10 + (c.toNat - 48)) 0

/-- Assemble a JSON number from sign, integer digits, fraction digits and
decimal exponent. -/
def mkNum (neg : Bool) (ds fds : List Char) (e : Int) : Json :=
  let m : Int := Int.ofNat (digitsToNat (ds ++ fds))
  Json.num (if neg then -m else m) (e - Int.ofNat fds.length)

/-- Parse the optional exponent part of a JSON number. -/
def parseExpPart (neg : Bool) (ds fds : List Char) (s : List Char) :
    Option (Json × List Char) :=
  match s with
  | c :: r =>
    if c = 'e' ∨ c = 'E' then
      let (esign, r2) : Int × List Char :=
        match r with
        | d :: r' => if d = '+' then (1, r') else if d = '-' then (-1, r') else (1, r)
        | [] => (1, [])
      match takeDigits r2 with
      | ([], _) => none
      | (eds, s3) => some (mkNum neg ds fds (esign * Int.ofNat (digitsToNat eds)), s3)
    else some (mkNum neg ds fds 0, c :: r)
  | [] => some (mkNum neg ds fds 0, [])

/-- Parse a JSON number token (the grammar of `json.loads`: optional minus,
no leading zeros, optional fraction and exponent). -/
def parseNum (s : List Char) : Option (Json × List Char) :=
  let (neg, s1) : Bool × List Char :=
    match s with
    | c :: r => if c = '-' then (true, r) else (false, s)
    | [] => (false, [])
  match takeDigits s1 with
  | ([], _) => none
  | (ds, s2) =>
    if ds.length > 1 ∧ ds.head? = some '0' then none
    else
      match s2 with
      | '.' :: r =>
        match takeDigits r with
        | ([], _) => none
        | (fds, s3) => parseExpPart neg ds fds s3
      | _ => parseExpPart neg ds [] s2

/-- Parse the members of a JSON object after the opening brace (first
member onward), given a parser `pv` for the values.  Returns the member
list in source order and the remainder after the closing brace. -/
def parseMembersF (pv : List Char → Option (Json × List Char)) :
    Nat → List Char → Option (List (String × Json) × List Char)
  | 0, _ => none
  | fuel + 1, s =>
    match skipWs s with
    | '"' :: rest =>
      match parseStrChars (rest.length + 1) rest with
      | none => none
      | some (kcs, s1) =>
        match skipWs s1 with
        | ':' :: s2 =>
          match pv s2 with
          | none => none
          | some (v, s3) =>
            match skipWs s3 with
            | c :: s4 =>
              if c = ',' then
                match parseMembersF pv fuel s4 with
                | some (ms, s5) => some ((String.mk kcs, v) :: ms, s5)
                | none => none
              else if c = closeBrace then some ([(String.mk kcs, v)], s4)
              else none
            | [] => none
        | _ => none
    | _ => none

/-- Parse the elements of a JSON array after the opening bracket (first
element onward), given a parser `pv` for the values. -/
def parseElemsF (pv : List Char → Option (Json × List Char)) :
    Nat → List Char → Option (List Json × List Char)
  | 0, _ => none
  | fuel + 1, s =>
    match pv s with
    | none => none
    | some (v, s1) =>
      match skipWs s1 with
      | c :: s2 =>
        if c = ',' then
          match parseElemsF pv fuel s2 with
          | some (vs, s3) => some (v :: vs, s3)
          | none => none
        else if c = ']' then some ([v], s2)
        else none
      | [] => none

/-- Recursive-descent parser for one JSON value, following the grammar
accepted by Python's `json.loads` (including `NaN`, `Infinity` and
`-Infinity`).  Duplicate object keys collapse through `dictInsert`, last
value winning, as in a Python `dict`. -/
def parseVal : Nat → List Char → Option (Json × List Char)
  | 0, _ => none
  | fuel + 1, s =>
    match skipWs s with
    | [] => none
    | c :: rest =>
      if c = openBrace then
        match skipWs rest with
        | d :: rest2 =>
          if d = closeBrace then some (Json.obj [], rest2)
          else
            match parseMembersF (parseVal fuel) (rest.length + 1) (d :: rest2) with
            | some (ms, r) =>
              some (Json.obj (ms.foldl (fun acc kv => dictInsert acc kv.1 kv.2) []), r)
            | none => none
        | [] => none
      else if c = '[' then
        match skipWs rest with
        | d :: rest2 =>
          if d = ']' then some (Json.arr [], rest2)
          else
            match parseElemsF (parseVal fuel) (rest.length + 1) (d :: rest2) with
            | some (vs, r) => some (Json.arr vs, r)
            | none => none
        | [] => none
      else if c = '"' then
        match parseStrChars (rest.length + 1) rest with
        | some (cs, r) => some (Json.str (String.mk cs), r)
        | none => none
      else if c = 't' then
        match rest with
        | 'r' :: 'u' :: 'e' :: r => some (Json.bool true, r)
        | _ => none
      else if c = 'f' then
        match rest with
        | 'a' :: 'l' :: 's' :: 'e' :: r => some (Json.bool false, r)
        | _ => none
      else if c = 'n' then
        match rest with
        | 'u' :: 'l' :: 'l' :: r => some (Json.null, r)
        | _ => none
      else if c = 'N' then
        match rest with
        | 'a' :: 'N' :: r => some (Json.nan, r)
        | _ => none
      else if c = 'I' then
        match rest with
        | 'n' :: 'f' :: 'i' :: 'n' :: 'i' :: 't' :: 'y' :: r => some (Json.infinity false, r)
        | _ => none
      else if c = '-' then
        match rest with
        | 'I' :: 'n' :: 'f' :: 'i' :: 'n' :: 'i' :: 't' :: 'y' :: r => some (Json.infinity true, r)
        | _ => parseNum (c :: rest)
      else parseNum (c :: rest)

/-- Python's `json.loads` on a character list: parse one value and require
only whitespace to remain.  The fuel `length + 1` covers any input, since
every recursive descent consumes at least one character per level. -/
def jsonDecode (s : List Char) : Option Json :=
  match parseVal (s.length + 1) s with
  | some (v, rest) => if skipWs rest = [] then some v else none
  | none => none

/-- Prefix of the input up to and including the last closing brace, or
`none` when no closing brace occurs. -/
def dropAfterLastClose : List Char → Option (List Char)
  | [] => none
  | c :: rest =>
    match dropAfterLastClose rest with
    | some t => some (c :: t)
    | none => if c = closeBrace then some [c] else none

/-- The span matched by `re.search(r'\x7b.*\x7d', text, re.DOTALL)`: from
the first opening brace to the last closing brace after it, or `none` when
the pattern does not match. -/
def extractSpan : List Char → Option (List Char)
  | [] => none
  | c :: rest =>
    if c = openBrace then (dropAfterLastClose rest).map (fun t => c :: t)
    else extractSpan rest

/-- `parse_mcq_response`: extract the brace span and JSON-decode it; both
failure modes (no span, decode error) surface an error message and return
`None`, modelled as `none`. -/
def parse_mcq_response (response_text : List Char) : Option Json :=
  (extractSpan response_text).bind jsonDecode

/-- Length of the top-level `questions` array of a decoded response, when
present. -/
def questionsLength (j : Json) : Option Nat :=
  match j.getKey "questions" with
  | some (Json.arr l) => some l.length
  | _ => none

/-- The answer map `st.session_state.student_answers`: a Python dict whose
keys are the strings `q_1`, `q_2`, ..., modelled by the question numbers
themselves (the encoding `n` to `q_n` is a bijection). -/
abbrev AnswerMap := List (Nat × String)

/-- Dict lookup `student_answers.get(key)`. -/
def lookupAns : AnswerMap → Nat → Option String
  | [], _ => none
  | (k', v') :: rest, k => if k' = k then some v' else lookupAns rest k

/-- Dict assignment `student_answers[key] = value`: overwrite in place or
append. -/
def pyInsert : AnswerMap → Nat → String → AnswerMap
  | [], k, v => [(k, v)]
  | (k', v') :: rest, k, v =>
    if k' = k then (k, v) :: rest else (k', v') :: pyInsert rest k v

/-- Python `==` between the stored answer (a string or `None`) and the
decoded `correct_answer` value: string equality on strings, `None == None`
on nulls, `False` across types. -/
def pyEqAns : Option String → Json → Bool
  | none, Json.null => true
  | some a, Json.str t => a == t
  | _, _ => false

/-- One entry of the `results` list built by `calculate_score`. -/
structure QuestionResult where
  question_number : Nat
  question_text : Json
  options : Json
  student_answer : Option String
  correct_answer : Json
  is_correct : Bool
  explanation : Json
  topic : Json
  difficulty : Json

/-- The dictionary returned by `calculate_score`. -/
structure ScoreReport where
  total_questions : Nat
  correct_answers : Nat
  score_percentage : ℚ
  results : List QuestionResult

/-- The result record for question `i` (0-based) assuming the required
keys are present; `.get` defaults are substituted for the optional keys. -/
def mkResult (student_answers : AnswerMap) (i : Nat) (q : Json) : QuestionResult :=
  let student_answer := lookupAns student_answers (i + 1)
  let correct_answer := (q.getKey "correct_answer").getD Json.null
  { question_number := i + 1
    question_text := (q.getKey "question_text").getD Json.null
    options := (q.getKey "options").getD Json.null
    student_answer := student_answer
    correct_answer := correct_answer
    is_correct := pyEqAns student_answer correct_answer
    explanation := (q.getKey "explanation").getD (Json.str "No explanation provided")
    topic := (q.getKey "topic").getD (Json.str "General")
    difficulty := (q.getKey "difficulty").getD (Json.str "Medium") }

/-- The loop body of `calculate_score` for question `i`: plain indexing
`question[...]` on the three required keys (KeyError modelled by `none`),
`.get` with defaults on the rest. -/
def scoreQuestion (student_answers : AnswerMap) (i : Nat) (q : Json) :
    Option QuestionResult :=
  match q.getKey "correct_answer", q.getKey "question_text", q.getKey "options" with
  | some _, some _, some _ => some (mkResult student_answers i q)
  | _, _, _ => none

/-- The `for i, question in enumerate(questions)` loop of
`calculate_score`, started at index `i`. -/
def scoreResultsAux (student_answers : AnswerMap) : Nat → List Json → Option (List QuestionResult)
  | _, [] => some []
  | i, q :: qs =>
    match scoreQuestion student_answers i q with
    | none => none
    | some r =>
      match scoreResultsAux student_answers (i + 1) qs with
      | none => none
      | some rs => some (r :: rs)

/-- `calculate_score(questions, student_answers)`: per-question results in
question order, the count of correct answers, and the exact percentage
`correct / total * 100`; an empty question list raises ZeroDivisionError,
modelled by `none`. -/
def calculate_score (questions : List Json) (student_answers : AnswerMap) :
    Option ScoreReport :=
  match scoreResultsAux student_answers 0 questions with
  | none => none
  | some results =>
    let total_questions := questions.length
    let correct_answers := results.countP (fun r => r.is_correct)
    if total_questions = 0 then none
    else
      some { total_questions := total_questions
             correct_answers := correct_answers
             score_percentage := (correct_answers : ℚ) / (total_questions : ℚ) * 100
             results := results }

/-- The four wizard phases derived from the three session booleans. -/
inductive Stage where
  | Creating
  | Ready
  | InProgress
  | Completed

/-- The per-session state dictionary initialised by `main()`. -/
structure SessionState where
  test_created : Bool
  test_data : Option Json
  test_started : Bool
  test_completed : Bool
  student_answers : AnswerMap
  current_question : Nat
  student_name : String

/-- Which interface `main()` dispatches to, as a stage. -/
def stage (s : SessionState) : Stage :=
  if s.test_created = false then Stage.Creating
  else if s.test_started = false then Stage.Ready
  else if s.test_completed = false then Stage.InProgress
  else Stage.Completed

/-- The session state set up by `main()` on a fresh session. -/
def initialSession : SessionState :=
  { test_created := false
    test_data := none
    test_started := false
    test_completed := false
    student_answers := []
    current_question := 0
    student_name := "" }

/-- The form inputs that affect the create handler's state change. -/
structure CreateInput where
  student_name : String
  api_key : String
  selected_topics : List String

/-- Outcome of a click on the create button: the new session state,
whether the external generation call was made, and whether an error
message was displayed. -/
structure CreateOutcome where
  state : SessionState
  calledGenerator : Bool
  errorShown : Bool

/-- The create-button handler of `show_test_creation_interface`.
`genResult` is the value returned by `generate_mcqs` (`none` when the API
call raised and the error was shown).  Validation of name, key and topics
happens before anything is stored; the student name is stored before the
generation call; the parsed data is stored only when it is truthy. -/
def stepCreate (s : SessionState) (inp : CreateInput) (genResult : Option (List Char)) :
    CreateOutcome :=
  if inp.student_name = "" then ⟨s, false, true⟩
  else if inp.api_key = "" then ⟨s, false, true⟩
  else if inp.selected_topics = [] then ⟨s, false, true⟩
  else
    let s1 := { s with student_name := inp.student_name }
    match genResult with
    | none => ⟨s1, true, true⟩
    | some response =>
      if response = [] then ⟨s1, true, true⟩
      else
        match parse_mcq_response response with
        | none => ⟨s1, true, true⟩
        | some mcq_data =>
          if pyTruthy mcq_data then
            ⟨{ s1 with test_data := some mcq_data, test_created := true }, true, false⟩
          else ⟨s1, true, true⟩

/-- The three buttons of the in-progress interface, each carrying the
radio selection visible when it was clicked (`none` models a falsy
selection). -/
inductive TestAction where
  | previous (selected : Option String)
  | nextQ (selected : Option String)
  | finishTest (selected : Option String)

/-- The radio selection an action carries. -/
def selOf : TestAction → Option String
  | TestAction.previous sel => sel
  | TestAction.nextQ sel => sel
  | TestAction.finishTest sel => sel

/-- `if selected_answer: student_answers[f"q_..."] = selected_answer`
before navigating. -/
def saveAnswer (s : SessionState) (sel : Option String) : SessionState :=
  match sel with
  | none => s
  | some v =>
    if v = "" then s
    else { s with student_answers := pyInsert s.student_answers (s.current_question + 1) v }

/-- The effect of the clicked button, given the current index and the
question count; buttons that are not rendered leave the state unchanged. -/
def applyNav (s : SessionState) (a : TestAction) (total : Nat) : SessionState :=
  match a with
  | TestAction.previous sel =>
    if s.current_question > 0 then
      { saveAnswer s sel with current_question := s.current_question - 1 }
    else s
  | TestAction.nextQ sel =>
    if s.current_question < total - 1 then
      { saveAnswer s sel with current_question := s.current_question + 1 }
    else s
  | TestAction.finishTest sel =>
    if s.current_question = total - 1 then
      { saveAnswer s sel with test_completed := true }
    else s

/-- One event of `show_test_interface`: the early return on falsy
`test_data`, the accesses `test_data['questions']`, `len(questions)`, the
progress-bar division (ZeroDivisionError on an empty list), the rendering
of the current question (KeyError/TypeError on malformed records), and the
navigation buttons.  `none` models an uncaught exception. -/
def stepTest (s : SessionState) (a : TestAction) : Option SessionState :=
  match s.test_data with
  | none => some s
  | some td =>
    if pyTruthy td = false then some s
    else
      match td.getKey "questions" with
      | none => none
      | some qj =>
        match qj with
        | Json.arr questions =>
          let total := questions.length
          if total = 0 then none
          else if h : s.current_question < total then
            let question := questions.get ⟨s.current_question, h⟩
            match question.getKey "question_text", question.getKey "options" with
            | some _, some (Json.obj _) => some (applyNav s a total)
            | _, _ => none
          else some s
        | _ => none

/-- Can a question count be rendered for the ready screen, i.e. does
`len(test_data['questions'])` evaluate? -/
def pyHasLen : Json → Bool
  | Json.arr _ => true
  | Json.str _ => true
  | Json.obj _ => true
  | _ => false

/-- Does `display_results` render without raising: every result's
`options` must be a dict for `.items()`. -/
def displayResultsOk (r : ScoreReport) : Bool :=
  r.results.all (fun res =>
    match res.options with
    | Json.obj _ => true
    | _ => false)

/-- Whether the interface of the current stage renders a reset button
("Create New Test" / "Create Another Test").  The creation and in-progress
interfaces have none; the ready and results interfaces render theirs only
after the guards and accesses that precede the button succeed. -/
def resetAvailable (s : SessionState) : Bool :=
  match stage s with
  | Stage.Creating => false
  | Stage.InProgress => false
  | Stage.Ready =>
    match s.test_data with
    | none => false
    | some td =>
      pyTruthy td &&
        (match td.getKey "questions" with
         | some qj => pyHasLen qj
         | none => false)
  | Stage.Completed =>
    match s.test_data with
    | none => false
    | some td =>
      pyTruthy td &&
        (match td.getKey "questions" with
         | some (Json.arr qs) =>
           (match calculate_score qs s.student_answers with
            | some r => displayResultsOk r
            | none => false)
         | _ => false)

/-- The reset handler: `del st.session_state[key]` for every key, after
which `main()` re-initialises the defaults. -/
def applyReset (_ : SessionState) : SessionState := initialSession

/-! ### Lemmas about the brace-span extraction -/

theorem dropAfterLastClose_eq_none {s : List Char} (h : closeBrace ∉ s) :
    dropAfterLastClose s = none := by
  induction s with
  | nil => rfl
  | cons c rest ih =>
    simp only [List.mem_cons, not_or] at h
    have hcne : ¬ c = closeBrace := fun hc => h.1 hc.symm
    simp [dropAfterLastClose, ih h.2, hcne]

theorem dropAfterLastClose_append {suf : List Char} (hs : closeBrace ∉ suf) :
    ∀ xs : List Char,
      dropAfterLastClose (xs ++ closeBrace :: suf) = some (xs ++ [closeBrace]) := by
  intro xs
  induction xs with
  | nil =>
    simp [dropAfterLastClose, dropAfterLastClose_eq_none hs]
  | cons x xs ih =>
    simp [dropAfterLastClose, ih]

theorem extractSpan_append {p : List Char} (hp : openBrace ∉ p) (s : List Char) :
    extractSpan (p ++ s) = extractSpan s := by
  induction p with
  | nil => rfl
  | cons c rest ih =>
    simp only [List.mem_cons, not_or] at hp
    have hcne : ¬ c = openBrace := fun hc => hp.1 hc.symm
    simp [extractSpan, hcne, ih hp.2]

theorem extractSpan_eq_none {s : List Char} (h : openBrace ∉ s) :
    extractSpan s = none := by
  induction s with
  | nil => rfl
  | cons c rest ih =>
    simp only [List.mem_cons, not_or] at h
    have hcne : ¬ c = openBrace := fun hc => h.1 hc.symm
    simp [extractSpan, hcne, ih h.2]

/-- C5: the parser takes the substring from the first opening brace to the
last closing brace (greedily, across line breaks) and JSON-decodes it: for
any input `p ++ J ++ suf` where `J` is a valid JSON object text (it starts
with the opening brace, ends with the closing brace, and decodes) and
neither `p` nor `suf` contains a brace character, `parse_mcq_response`
succeeds with exactly the decoded object; in particular the `questions`
array keeps its length. -/
theorem parse_roundtrip (p J suf : List Char) (v : Json)
    (hpo : openBrace ∉ p) (hpc : closeBrace ∉ p)
    (hso : openBrace ∉ suf) (hsc : closeBrace ∉ suf)
    (hhead : J.head? = some openBrace) (hlast : J.getLast? = some closeBrace)
    (hdec : jsonDecode J = some v) :
    parse_mcq_response (p ++ J ++ suf) = some v ∧
      (parse_mcq_response (p ++ J ++ suf)).bind questionsLength =
        (jsonDecode J).bind questionsLength := by
  obtain ⟨c, t, rfl⟩ : ∃ c t, J = c :: t := by
    cases J with
    | nil => simp at hhead
    | cons c t => exact ⟨c, t, rfl⟩
  obtain rfl : c = openBrace := by simpa using hhead
  have ht : t ≠ [] := by
    intro h
    subst h
    simp only [List.getLast?] at hlast
    have : openBrace = closeBrace := by simpa using hlast
    exact absurd this (by decide)
  have hlt : t.getLast ht = closeBrace := by
    have := List.getLast?_eq_getLast_of_ne_nil (l := openBrace :: t) (by simp)
    rw [hlast] at this
    have h2 : (openBrace :: t).getLast (by simp) = closeBrace := by
      exact (Option.some_injective _ this.symm)
    rwa [List.getLast_cons ht] at h2
  have htsplit : t.dropLast ++ [closeBrace] = t := by
    have := List.dropLast_append_getLast (l := t) ht
    rwa [hlt] at this
  have hspan : extractSpan (p ++ (openBrace :: t) ++ suf) = some (openBrace :: t) := by
    rw [List.append_assoc, extractSpan_append hpo]
    show extractSpan (openBrace :: (t ++ suf)) = _
    simp only [extractSpan, if_pos rfl]
    have : t ++ suf = t.dropLast ++ closeBrace :: suf := by
      conv_lhs => rw [← htsplit]
      simp [List.append_assoc]
    rw [this, dropAfterLastClose_append hsc, Option.map_some']
    rw [htsplit]
    simp
  constructor
  · simp only [parse_mcq_response, hspan, Option.some_bind]
    exact hdec
  · simp only [parse_mcq_response, hspan, Option.some_bind]

/-- C5 witness at a concrete response text. -/
theorem parse_roundtrip_witness :
    parse_mcq_response
        ("here is your quiz: ".data ++ "\x7b\"questions\":[1,2,3]\x7d".data ++ " thanks".data) =
      some (Json.obj [("questions", Json.arr [Json.num 1 0, Json.num 2 0, Json.num 3 0])]) :=
  (parse_roundtrip "here is your quiz: ".data "\x7b\"questions\":[1,2,3]\x7d".data
    " thanks".data _ (by decide) (by decide) (by decide) (by decide) (by decide) (by decide)
    rfl).1

/-- C6: on a text with no opening brace, and likewise on any text whose
extracted first-brace-to-last-brace span fails to JSON-decode, the parser
returns the failure signal `none` and never a question set. -/
theorem parse_failure_cases (s : List Char) :
    (openBrace ∉ s → parse_mcq_response s = none) ∧
    (∀ span, extractSpan s = some span → jsonDecode span = none →
      parse_mcq_response s = none) := by
  constructor
  · intro h
    simp [parse_mcq_response, extractSpan_eq_none h]
  · intro span hspan hdec
    simp [parse_mcq_response, hspan, hdec]

/-- C6 witness: a brace-free text and a text whose span is not JSON. -/
theorem parse_failure_cases_witness :
    parse_mcq_response "here is no json at all".data = none ∧
      parse_mcq_response "\x7boops\x7d".data = none :=
  ⟨(parse_failure_cases "here is no json at all".data).1 (by decide),
   (parse_failure_cases "\x7boops\x7d".data).2 "\x7boops\x7d".data rfl rfl⟩

/-- C8: whenever the extracted brace span decodes as JSON, the parser
returns the decoded object as-is, with no schema validation: an object
missing expected fields, with the wrong option count, or with an
unexpected difficulty tag is not rejected. -/
theorem parse_no_schema_validation (s span : List Char) (v : Json)
    (hspan : extractSpan s = some span) (hdec : jsonDecode span = some v) :
    parse_mcq_response s = some v := by
  simp [parse_mcq_response, hspan, hdec]

/-- C8 witness: a question record with a single option, an unexpected
difficulty tag and no `question_text` or `correct_answer` is returned
as-is. -/
theorem parse_no_schema_validation_witness :
    parse_mcq_response
        "quiz: \x7b\"questions\":[\x7b\"difficulty\":\"Insane\",\"options\":\x7b\"A\":\"x\"\x7d\x7d]\x7d".data =
      some (Json.obj [("questions", Json.arr
        [Json.obj [("difficulty", Json.str "Insane"),
                   ("options", Json.obj [("A", Json.str "x")])]])]) :=
  parse_no_schema_validation _ _ _ rfl rfl

/-! ### Lemmas about the scorer -/

/-- The claim's reading of per-question correctness: the stored answer
label (when present) is string-equal to the question's correct label, an
absent answer counting as incorrect. -/
def specIsCorrect (answers : AnswerMap) (i : Nat) (q : Json) : Bool :=
  match lookupAns answers (i + 1), Json.getKey q "correct_answer" with
  | some a, some (Json.str lbl) => a == lbl
  | _, _ => false

/-- The claim's correct count: the number of questions whose stored answer
is string-equal to the correct label. -/
def spec_correct_count (questions : List Json) (answers : AnswerMap) : Nat :=
  questions.enum.countP fun p => specIsCorrect answers p.1 p.2

theorem scoreQuestion_eq_mkResult {ans : AnswerMap} {i : Nat} {q : Json}
    (h1 : (Json.getKey q "correct_answer").isSome = true)
    (h2 : (Json.getKey q "question_text").isSome = true)
    (h3 : (Json.getKey q "options").isSome = true) :
    scoreQuestion ans i q = some (mkResult ans i q) := by
  cases hca : Json.getKey q "correct_answer" with
  | none => rw [hca] at h1; simp at h1
  | some a =>
    cases hqt : Json.getKey q "question_text" with
    | none => rw [hqt] at h2; simp at h2
    | some b =>
      cases hop : Json.getKey q "options" with
      | none => rw [hop] at h3; simp at h3
      | some c => simp [scoreQuestion, hca, hqt, hop]

theorem scoreResultsAux_eq (ans : AnswerMap) :
    ∀ (qs : List Json) (i : Nat),
      (∀ q ∈ qs, (Json.getKey q "correct_answer").isSome = true ∧
        (Json.getKey q "question_text").isSome = true ∧
        (Json.getKey q "options").isSome = true) →
      scoreResultsAux ans i qs =
        some ((qs.enumFrom i).map fun p => mkResult ans p.1 p.2) := by
  intro qs
  induction qs with
  | nil => intro i _; rfl
  | cons q qs ih =>
    intro i h
    have hq := h q (List.mem_cons_self _ _)
    have hqs : ∀ q' ∈ qs, _ := fun q' hq' => h q' (List.mem_cons_of_mem _ hq')
    simp [scoreResultsAux, scoreQuestion_eq_mkResult hq.1 hq.2.1 hq.2.2, ih (i + 1) hqs,
      List.enumFrom]

theorem calculate_score_eq (qs : List Json) (ans : AnswerMap) (hne : qs ≠ [])
    (hreq : ∀ q ∈ qs, (Json.getKey q "correct_answer").isSome = true ∧
      (Json.getKey q "question_text").isSome = true ∧
      (Json.getKey q "options").isSome = true) :
    calculate_score qs ans =
      some { total_questions := qs.length
             correct_answers :=
               ((qs.enum.map fun p => mkResult ans p.1 p.2).countP fun r => r.is_correct)
             score_percentage :=
               (((qs.enum.map fun p => mkResult ans p.1 p.2).countP fun r => r.is_correct : ℚ)) /
                 (qs.length : ℚ) * 100
             results := qs.enum.map fun p => mkResult ans p.1 p.2 } := by
  have hlen : ¬ qs.length = 0 := fun h => hne (List.length_eq_zero.mp h)
  unfold calculate_score
  rw [show (List.enum qs) = List.enumFrom 0 qs from rfl,
    scoreResultsAux_eq ans qs 0 hreq]
  simp [hlen]

theorem snd_mem_of_mem_enumFrom {l : List Json} :
    ∀ {n : Nat} {p : Nat × Json}, p ∈ l.enumFrom n → p.2 ∈ l := by
  induction l with
  | nil => intro n p h; simp [List.enumFrom] at h
  | cons q qs ih =>
    intro n p h
    simp only [List.enumFrom, List.mem_cons] at h
    rcases h with rfl | h
    · simp
    · exact List.mem_cons_of_mem _ (ih h)

/-- C1: for every question set with at least one question (each question a
record carrying its text, options and a string correct label) and every
answer map, `calculate_score` succeeds; its `correct_answers` equals the
number of questions whose stored answer label (when present) is
string-equal to that question's correct label, an absent answer counting
as incorrect; `score_percentage` is exactly `correct / total * 100` as a
rational; and the per-question results are in question order with
`is_correct` set accordingly. -/
theorem calculate_score_correct (questions : List Json) (answers : AnswerMap)
    (hne : questions ≠ [])
    (hlbl : ∀ q ∈ questions, (Json.getKey q "question_text").isSome = true ∧
      (Json.getKey q "options").isSome = true ∧
      ∃ lbl, Json.getKey q "correct_answer" = some (Json.str lbl)) :
    ∃ r, calculate_score questions answers = some r ∧
      r.total_questions = questions.length ∧
      r.correct_answers = spec_correct_count questions answers ∧
      r.score_percentage =
        (spec_correct_count questions answers : ℚ) / (questions.length : ℚ) * 100 ∧
      r.results.length = questions.length ∧
      (∀ i q, questions[i]? = some q →
        ∃ res, r.results[i]? = some res ∧ res.question_number = i + 1 ∧
          res.is_correct = specIsCorrect answers i q) := by
  have hreq : ∀ q ∈ questions, (Json.getKey q "correct_answer").isSome = true ∧
      (Json.getKey q "question_text").isSome = true ∧
      (Json.getKey q "options").isSome = true := by
    intro q hq
    obtain ⟨h1, h2, lbl, h3⟩ := hlbl q hq
    exact ⟨by simp [h3], h1, h2⟩
  have hcount : ((questions.enum.map fun p => mkResult answers p.1 p.2).countP
      fun r => r.is_correct) = spec_correct_count questions answers := by
    rw [List.countP_map]
    apply List.countP_congr
    intro p hp
    obtain ⟨h1, h2, lbl, h3⟩ := hlbl p.2 (snd_mem_of_mem_enumFrom hp)
    cases hl : lookupAns answers (p.1 + 1) with
    | none => simp [Function.comp, mkResult, pyEqAns, specIsCorrect, hl, h3]
    | some a => simp [Function.comp, mkResult, pyEqAns, specIsCorrect, hl, h3]
  refine ⟨_, calculate_score_eq questions answers hne hreq, rfl, hcount, ?_, ?_, ?_⟩
  · rw [hcount]
  · simp [List.length_map, List.enum_length]
  · intro i q hq
    refine ⟨mkResult answers (0 + i) q, ?_, by simp [mkResult], ?_⟩
    · rw [List.getElem?_map, show questions.enum = questions.enumFrom 0 from rfl,
        List.getElem?_enumFrom, hq]
      rfl
    · have hmem : q ∈ questions := by
        have := List.getElem?_eq_some.mp hq
        obtain ⟨hlt, rfl⟩ := this
        exact List.getElem_mem _
      obtain ⟨h1, h2, lbl, h3⟩ := hlbl q hmem
      cases hl : lookupAns answers (0 + i + 1) with
      | none => simp [mkResult, pyEqAns, specIsCorrect, hl, h3, Nat.zero_add] at hl ⊢ <;>
          simp [hl]
      | some a => simp [mkResult, pyEqAns, specIsCorrect, h3, Nat.zero_add] at hl ⊢ <;>
          simp [hl]

/-- A fully populated sample question record. -/
def sampleQ1 : Json := Json.obj [("question_text", Json.str "Q1"),
  ("options", Json.obj [("A", Json.str "a1"), ("B", Json.str "b1")]),
  ("correct_answer", Json.str "A"), ("explanation", Json.str "why"),
  ("topic", Json.str "T"), ("difficulty", Json.str "Easy")]

/-- A sample question record with only the required keys. -/
def sampleQ2 : Json := Json.obj [("question_text", Json.str "Q2"),
  ("options", Json.obj [("A", Json.str "a2"), ("B", Json.str "b2")]),
  ("correct_answer", Json.str "B")]

/-- A sample answer map: question 1 answered correctly, question 2
incorrectly. -/
def sampleAnswers : AnswerMap := [(1, "A"), (2, "C")]

/-- C1 witness at a concrete two-question set. -/
theorem calculate_score_correct_witness :
    ∃ r, calculate_score [sampleQ1, sampleQ2] sampleAnswers = some r ∧
      r.correct_answers = spec_correct_count [sampleQ1, sampleQ2] sampleAnswers ∧
      r.score_percentage =
        (spec_correct_count [sampleQ1, sampleQ2] sampleAnswers : ℚ) /
          (([sampleQ1, sampleQ2] : List Json).length : ℚ) * 100 := by
  obtain ⟨r, h1, _, h3, h4, _, _⟩ :=
    calculate_score_correct [sampleQ1, sampleQ2] sampleAnswers (by simp)
      (by
        intro q hq
        simp only [List.mem_cons, List.not_mem_nil, or_false] at hq
        rcases hq with rfl | rfl
        · exact ⟨rfl, rfl, "A", rfl⟩
        · exact ⟨rfl, rfl, "B", rfl⟩)
  exact ⟨r, h1, h3, h4⟩

/-- C9: a question record lacking the `explanation`, `topic` or
`difficulty` key still scores — only `correct_answer`, `question_text` and
`options` must be present — and its result record substitutes the defaults
`No explanation provided`, `General` and `Medium`. -/
theorem score_optional_defaults (questions : List Json) (answers : AnswerMap)
    (hne : questions ≠ [])
    (hreq : ∀ q ∈ questions, (Json.getKey q "correct_answer").isSome = true ∧
      (Json.getKey q "question_text").isSome = true ∧
      (Json.getKey q "options").isSome = true) :
    ∃ r, calculate_score questions answers = some r ∧
      ∀ (i : Nat) (q : Json), questions[i]? = some q →
        ∃ res : QuestionResult, r.results[i]? = some res ∧
          res.explanation =
            (Json.getKey q "explanation").getD (Json.str "No explanation provided") ∧
          res.topic = (Json.getKey q "topic").getD (Json.str "General") ∧
          res.difficulty = (Json.getKey q "difficulty").getD (Json.str "Medium") := by
  refine ⟨_, calculate_score_eq questions answers hne hreq, ?_⟩
  intro i q hq
  refine ⟨mkResult answers (0 + i) q, ?_, by simp [mkResult], by simp [mkResult],
    by simp [mkResult]⟩
  rw [List.getElem?_map, show questions.enum = questions.enumFrom 0 from rfl,
    List.getElem?_enumFrom, hq]
  rfl

/-- C9 witness: a question with no optional keys gets the three
defaults. -/
theorem score_optional_defaults_witness :
    ∃ r, calculate_score [sampleQ2] [] = some r ∧
      ∃ res : QuestionResult, r.results[0]? = some res ∧
        res.explanation = Json.str "No explanation provided" ∧
        res.topic = Json.str "General" ∧ res.difficulty = Json.str "Medium" := by
  obtain ⟨r, h1, h2⟩ :=
    score_optional_defaults [sampleQ2] [] (by simp)
      (by
        intro q hq
        simp only [List.mem_cons, List.not_mem_nil, or_false] at hq
        subst hq
        exact ⟨rfl, rfl, rfl⟩)
  obtain ⟨res, hres, he, ht, hd⟩ := h2 0 sampleQ2 rfl
  exact ⟨r, h1, res, hres, he.trans rfl, ht.trans rfl, hd.trans rfl⟩

/-! ### Lemmas about the session state machine -/

theorem lookupAns_pyInsert_self (m : AnswerMap) (k : Nat) (v : String) :
    lookupAns (pyInsert m k v) k = some v := by
  induction m with
  | nil => simp [pyInsert, lookupAns]
  | cons p rest ih =>
    obtain ⟨k', v'⟩ := p
    by_cases h : k' = k
    · subst h
      simp [pyInsert, lookupAns]
    · simp [pyInsert, lookupAns, h, ih]

theorem lookupAns_pyInsert_ne (m : AnswerMap) {k n : Nat} (v : String) (h : n ≠ k) :
    lookupAns (pyInsert m k v) n = lookupAns m n := by
  have hk : ¬ k = n := fun hh => h hh.symm
  induction m with
  | nil => simp [pyInsert, lookupAns, hk]
  | cons p rest ih =>
    obtain ⟨k', v'⟩ := p
    by_cases hkk : k' = k
    · subst hkk
      simp [pyInsert, lookupAns, hk]
    · simp [pyInsert, lookupAns, hkk, ih]

theorem saveAnswer_answers (s : SessionState) (sel : Option String) :
    (saveAnswer s sel).student_answers = s.student_answers ∨
    ∃ v, sel = some v ∧ v ≠ "" ∧
      (saveAnswer s sel).student_answers =
        pyInsert s.student_answers (s.current_question + 1) v := by
  cases sel with
  | none => exact Or.inl rfl
  | some v =>
    by_cases hv : v = ""
    · subst hv
      exact Or.inl (by simp [saveAnswer])
    · exact Or.inr ⟨v, rfl, hv, by simp [saveAnswer, hv]⟩

theorem saveAnswer_lookup (s : SessionState) (sel : Option String) :
    (∀ n, n ≠ s.current_question + 1 →
      lookupAns (saveAnswer s sel).student_answers n = lookupAns s.student_answers n) ∧
    (lookupAns (saveAnswer s sel).student_answers (s.current_question + 1) =
        lookupAns s.student_answers (s.current_question + 1) ∨
      ∃ v, sel = some v ∧ v ≠ "" ∧
        lookupAns (saveAnswer s sel).student_answers (s.current_question + 1) = some v) := by
  rcases saveAnswer_answers s sel with h | ⟨v, hsel, hv, h⟩
  · rw [h]
    exact ⟨fun n _ => rfl, Or.inl rfl⟩
  · rw [h]
    exact ⟨fun n hn => lookupAns_pyInsert_ne _ _ hn,
      Or.inr ⟨v, hsel, hv, lookupAns_pyInsert_self _ _ _⟩⟩

theorem stepTest_cases {s : SessionState} {a : TestAction} {s' : SessionState}
    (h : stepTest s a = some s') :
    s' = s ∨ ∃ total, s' = applyNav s a total := by
  unfold stepTest at h
  repeat' (first | split at h | dsimp only at h)
  all_goals first
    | exact Or.inl (Option.some.inj h).symm
    | exact Or.inr ⟨_, (Option.some.inj h).symm⟩
    | exact absurd h (by simp)

/-- C10: no in-progress navigation event (previous, next, finish) removes
an entry from the answer map: every question other than the currently
displayed one keeps its stored answer, and the current question's entry is
either unchanged or overwritten with the selected label (a write happens
only when a label is selected). -/
theorem step_preserves_answers (s : SessionState) (a : TestAction) (s' : SessionState)
    (h : stepTest s a = some s') :
    (∀ n, n ≠ s.current_question + 1 →
      lookupAns s'.student_answers n = lookupAns s.student_answers n) ∧
    (lookupAns s'.student_answers (s.current_question + 1) =
        lookupAns s.student_answers (s.current_question + 1) ∨
      ∃ v, selOf a = some v ∧ v ≠ "" ∧
        lookupAns s'.student_answers (s.current_question + 1) = some v) := by
  rcases stepTest_cases h with rfl | ⟨total, rfl⟩
  · exact ⟨fun n _ => rfl, Or.inl rfl⟩
  · cases a with
    | previous sel =>
      by_cases hc : s.current_question > 0
      · simp only [applyNav, if_pos hc, selOf]
        exact saveAnswer_lookup s sel
      · simp [applyNav, if_neg hc]
    | nextQ sel =>
      by_cases hc : s.current_question < total - 1
      · simp only [applyNav, if_pos hc, selOf]
        exact saveAnswer_lookup s sel
      · simp [applyNav, if_neg hc]
    | finishTest sel =>
      by_cases hc : s.current_question = total - 1
      · simp only [applyNav, if_pos hc, selOf]
        exact saveAnswer_lookup s sel
      · simp [applyNav, if_neg hc]

/-- A sample stored test: two well-formed questions. -/
def sampleTd : Json := Json.obj [("questions", Json.arr [sampleQ1, sampleQ2])]

/-- A reachable in-progress session on `sampleTd`, at the first
question. -/
def sampleInProgress : SessionState :=
  { test_created := true
    test_data := some sampleTd
    test_started := true
    test_completed := false
    student_answers := []
    current_question := 0
    student_name := "Al" }

/-- C10 witness: answering question 1 and moving on leaves question 2's
(absent) entry untouched. -/
theorem step_preserves_answers_witness :
    lookupAns ({ sampleInProgress with
        student_answers := [(1, "A")], current_question := 1 } : SessionState).student_answers
        2 =
      lookupAns sampleInProgress.student_answers 2 :=
  (step_preserves_answers sampleInProgress (TestAction.nextQ (some "A"))
    { sampleInProgress with student_answers := [(1, "A")], current_question := 1 } rfl).1 2
    (by decide)

theorem saveAnswer_current (s : SessionState) (sel : Option String) :
    (saveAnswer s sel).current_question = s.current_question := by
  cases sel with
  | none => rfl
  | some v =>
    by_cases hv : v = "" <;> simp [saveAnswer, hv]

/-- C4: while the stage is in-progress and the session holds a well-formed
question list with the current index in range, every navigation event
succeeds (no crash) and keeps the index inside `[0, len)`: a previous
click at index 0 and a next click at the last index are no-ops, any other
previous/next click changes the index by exactly one, and a finish click
is accepted exactly at the last index and refused (state unchanged)
elsewhere. -/
theorem nav_bounds (s : SessionState) (td : Json) (qs : List Json)
    (hstage : stage s = Stage.InProgress)
    (htd : s.test_data = some td) (htr : pyTruthy td = true)
    (hq : Json.getKey td "questions" = some (Json.arr qs))
    (hlt : s.current_question < qs.length)
    (hqt : (Json.getKey (qs.get ⟨s.current_question, hlt⟩) "question_text").isSome = true)
    (hopts : ∃ m, Json.getKey (qs.get ⟨s.current_question, hlt⟩) "options" =
      some (Json.obj m)) :
    ∀ a : TestAction, ∃ s' : SessionState, stepTest s a = some s' ∧
      s'.current_question < qs.length ∧
      (∀ sel, a = TestAction.previous sel →
        (s.current_question = 0 → s' = s) ∧
        (0 < s.current_question → s'.current_question = s.current_question - 1)) ∧
      (∀ sel, a = TestAction.nextQ sel →
        (s.current_question = qs.length - 1 → s' = s) ∧
        (s.current_question < qs.length - 1 →
          s'.current_question = s.current_question + 1)) ∧
      (∀ sel, a = TestAction.finishTest sel →
        (s.current_question = qs.length - 1 → s'.test_completed = true) ∧
        (s.current_question ≠ qs.length - 1 → s' = s)) := by
  obtain ⟨b, hqtv⟩ := Option.isSome_iff_exists.mp hqt
  obtain ⟨m, hoptv⟩ := hopts
  have hlen : ¬ qs.length = 0 := by omega
  have hstep : ∀ a : TestAction, stepTest s a = some (applyNav s a qs.length) := by
    intro a
    simp only [stepTest, htd, htr, hq, hlen]
    rw [dif_pos hlt]
    simp only [List.get_eq_getElem] at hqtv hoptv
    simp [hqtv, hoptv]
  intro a
  refine ⟨applyNav s a qs.length, hstep a, ?_, ?_, ?_, ?_⟩
  · cases a with
    | previous sel =>
      by_cases hc : s.current_question > 0
      · simp only [applyNav, if_pos hc]
        omega
      · simp only [applyNav, if_neg hc]
        exact hlt
    | nextQ sel =>
      by_cases hc : s.current_question < qs.length - 1
      · simp only [applyNav, if_pos hc]
        omega
      · simp only [applyNav, if_neg hc]
        exact hlt
    | finishTest sel =>
      by_cases hc : s.current_question = qs.length - 1
      · simp only [applyNav, if_pos hc, saveAnswer_current]
        omega
      · simp only [applyNav, if_neg hc]
        exact hlt
  · intro sel ha
    subst ha
    constructor
    · intro h0
      simp [applyNav, h0]
    · intro hpos
      simp [applyNav, if_pos hpos]
  · intro sel ha
    subst ha
    constructor
    · intro hlast
      have : ¬ s.current_question < qs.length - 1 := by omega
      simp [applyNav, this]
    · intro hmid
      simp [applyNav, if_pos hmid]
  · intro sel ha
    subst ha
    constructor
    · intro hlast
      simp [applyNav, if_pos hlast]
    · intro hne
      simp [applyNav, hne]

/-- C4 witness at a concrete in-progress session. -/
theorem nav_bounds_witness :
    ∃ s' : SessionState,
      stepTest sampleInProgress (TestAction.previous none) = some s' ∧
        s'.current_question < 2 := by
  obtain ⟨s', h1, h2, _⟩ :=
    nav_bounds sampleInProgress sampleTd [sampleQ1, sampleQ2] rfl rfl rfl rfl (by decide)
      rfl ⟨_, rfl⟩ (TestAction.previous none)
  exact ⟨s', h1, h2⟩

/-- C2 counterexample: a creation attempt that fails at the generation
step still changes the session state — the student name, stored before the
generation call, is updated from the empty initial value to the submitted
name, so a failed attempt does not leave every session field unchanged. -/
theorem create_failure_changes_name :
    stage initialSession = Stage.Creating ∧
      (stepCreate initialSession ⟨"Alice", "sk-123", ["Algebra"]⟩ none).state.student_name ≠
        initialSession.student_name := by
  refine ⟨rfl, ?_⟩
  decide

/-- C2 (amended): a creation attempt that passes input validation but ends
in a generation failure or a parse failure leaves the stage `Creating`,
records no question set, leaves the answer map and all other fields
unchanged, and surfaces an error — except that the student name has
already been set to the submitted name before the generation call. -/
theorem create_failure_state (s : SessionState) (inp : CreateInput)
    (genResult : Option (List Char))
    (hstage : stage s = Stage.Creating)
    (hname : ¬ inp.student_name = "") (hapi : ¬ inp.api_key = "")
    (htopics : ¬ inp.selected_topics = [])
    (hfail : genResult = none ∨ genResult = some [] ∨
      ∃ r, genResult = some r ∧ parse_mcq_response r = none) :
    (stepCreate s inp genResult).state = { s with student_name := inp.student_name } ∧
    stage (stepCreate s inp genResult).state = Stage.Creating ∧
    (stepCreate s inp genResult).state.test_data = s.test_data ∧
    (stepCreate s inp genResult).state.student_answers = s.student_answers ∧
    (stepCreate s inp genResult).errorShown = true := by
  have hcreated : s.test_created = false := by
    by_contra hc
    rw [Bool.not_eq_false] at hc
    rw [stage, if_neg (by simp [hc])] at hstage
    split at hstage
    · exact Stage.noConfusion hstage
    · split at hstage
      · exact Stage.noConfusion hstage
      · exact Stage.noConfusion hstage
  have hout : stepCreate s inp genResult =
      ⟨{ s with student_name := inp.student_name }, true, true⟩ := by
    unfold stepCreate
    rw [if_neg hname, if_neg hapi, if_neg htopics]
    rcases hfail with rfl | rfl | ⟨r, rfl, hparse⟩
    · rfl
    · simp
    · dsimp only
      by_cases hr : r = []
      · simp [hr]
      · rw [if_neg hr, hparse]
  rw [hout]
  exact ⟨rfl, by simp [stage, hcreated], rfl, rfl, rfl⟩

/-- C2 witness for the amended statement, at a concrete failing attempt. -/
theorem create_failure_state_witness :
    (stepCreate initialSession ⟨"Alice", "sk-123", ["Algebra"]⟩ none).state =
      { initialSession with student_name := "Alice" } ∧
    (stepCreate initialSession ⟨"Alice", "sk-123", ["Algebra"]⟩ none).state.test_data =
      none := by
  obtain ⟨h1, _, h3, _, _⟩ :=
    create_failure_state initialSession ⟨"Alice", "sk-123", ["Algebra"]⟩ none rfl
      (by decide) (by decide) (by simp) (Or.inl rfl)
  exact ⟨h1, h3.trans rfl⟩

/-- C7: a create click with a missing student name, a missing API
credential, or an empty topic selection is rejected before any external
generation call: an error message is shown, the generator is never
invoked, and the session state is completely unchanged. -/
theorem create_validation_rejects (s : SessionState) (inp : CreateInput)
    (genResult : Option (List Char))
    (h : inp.student_name = "" ∨ inp.api_key = "" ∨ inp.selected_topics = []) :
    stepCreate s inp genResult = ⟨s, false, true⟩ := by
  unfold stepCreate
  rcases h with h | h | h
  · rw [if_pos h]
  · by_cases h1 : inp.student_name = ""
    · rw [if_pos h1]
    · rw [if_neg h1, if_pos h]
  · by_cases h1 : inp.student_name = ""
    · rw [if_pos h1]
    · by_cases h2 : inp.api_key = ""
      · rw [if_neg h1, if_pos h2]
      · rw [if_neg h1, if_neg h2, if_pos h]

/-- C7 witness: a click with an empty name is a rejected no-op. -/
theorem create_validation_rejects_witness :
    stepCreate initialSession ⟨"", "sk-123", ["Algebra"]⟩ (some "hello".data) =
      ⟨initialSession, false, true⟩ :=
  create_validation_rejects initialSession ⟨"", "sk-123", ["Algebra"]⟩ (some "hello".data)
    (Or.inl rfl)

/-- C3 counterexample: in a reachable in-progress session no reset button
is rendered — the in-progress interface offers only previous/next/finish —
so a reset action is not available from every stage. -/
theorem reset_unavailable_in_progress :
    stage sampleInProgress = Stage.InProgress ∧
      resetAvailable sampleInProgress = false :=
  ⟨rfl, rfl⟩

/-- C3 (amended): a reset action is available in the Ready and the
Completed stages (whenever the stored test data renders), and in no other
stage; performing a reset from any state whatsoever unconditionally
returns the initial session: stage `Creating`, no question set, empty
answer map, empty student name. -/
theorem reset_amended :
    (∀ s : SessionState, stage s = Stage.Creating ∨ stage s = Stage.InProgress →
      resetAvailable s = false) ∧
    (∀ (s : SessionState) (td : Json) (qs : List Json), stage s = Stage.Ready →
      s.test_data = some td → pyTruthy td = true →
      Json.getKey td "questions" = some (Json.arr qs) → resetAvailable s = true) ∧
    (∀ (s : SessionState) (td : Json) (qs : List Json) (r : ScoreReport),
      stage s = Stage.Completed → s.test_data = some td → pyTruthy td = true →
      Json.getKey td "questions" = some (Json.arr qs) →
      calculate_score qs s.student_answers = some r → displayResultsOk r = true →
      resetAvailable s = true) ∧
    (∀ s : SessionState, applyReset s = initialSession) ∧
    stage initialSession = Stage.Creating ∧
    initialSession.test_data = none ∧ initialSession.student_answers = [] ∧
    initialSession.student_name = "" := by
  refine ⟨?_, ?_, ?_, fun _ => rfl, rfl, rfl, rfl, rfl⟩
  · intro s h
    rcases h with h | h <;> simp [resetAvailable, h]
  · intro s td qs h htd htr hq
    simp [resetAvailable, h, htd, htr, hq, pyHasLen]
  · intro s td qs r h htd htr hq hsc hdisp
    simp [resetAvailable, h, htd, htr, hq, hsc, hdisp]

/-- A reachable ready-stage session on `sampleTd`. -/
def sampleReady : SessionState := { sampleInProgress with test_started := false }

/-- C3 witness for the amended statement: reset is available in a concrete
ready session and resets it to the initial state. -/
theorem reset_amended_witness :
    resetAvailable sampleReady = true ∧ applyReset sampleReady = initialSession :=
  ⟨reset_amended.2.1 sampleReady sampleTd [sampleQ1, sampleQ2] rfl rfl rfl rfl,
   reset_amended.2.2.2.1 sampleReady⟩
